import Mathlib

/-!
Verification of `src/linter.py` (a small Python style linter).

The linter parses each Python file with `ast.parse` and runs two analyzers
over `ast.walk` of the resulting tree:

* `check_import_order` classifies import statements into direct imports,
  third-party from-imports and local from-imports, checks each section for
  alphabetical order (comparing the `ast.unparse` text of each statement)
  and checks the relative placement of the sections;
* `check_docstrings_and_type_hints` flags functions and methods missing a
  docstring or missing type annotations.

We embed the syntax tree as seen by those two functions: each node keeps
exactly the attributes the linter reads (`lineno`, `module`, the
`ast.unparse` text for import statements, and name / line / arguments /
returns / docstring-presence / body for definitions).  `ast.parse` and
`ast.unparse` themselves are external library calls; their outputs are the
inputs of this model.
-/

/-- One parameter of a function definition, as read by the linter:
`arg.arg` (the name) and `arg.annotation` (here `annot`, an optional
annotation, kept abstractly as its source text). -/
structure Arg where
  name : String
  annot : Option String
deriving DecidableEq

/-- The `node.args` object of a Python `FunctionDef`.  The linter reads only
the field `args` (positional-or-keyword parameters); the remaining parameter
kinds are carried so that the model can also express properties about them. -/
structure Arguments where
  posonlyargs : List Arg
  args : List Arg
  vararg : Option Arg
  kwonlyargs : List Arg
  kwarg : Option Arg
deriving DecidableEq

/-- A node of the parsed syntax tree, restricted to the attributes the two
analyzers read.

* `importNode lineno text` is an `ast.Import` with its `ast.unparse` text;
* `importFrom lineno module text` is an `ast.ImportFrom` (`module` is
  `None` for a purely relative `from . import x`);
* `funcDef` covers `ast.FunctionDef` and `ast.AsyncFunctionDef`, which the
  linter treats identically; `hasDocstring` records whether
  `ast.get_docstring` returns a value, `returns` the optional return
  annotation, `body` the nested statements;
* `classDef` is an `ast.ClassDef` with its body;
* `other` stands for `ast.Module` and for any other compound statement:
  never matched by the analyzers, but `ast.walk` descends into its body. -/
inductive Node where
  | importNode (lineno : Nat) (text : String)
  | importFrom (lineno : Nat) (module : Option String) (text : String)
  | funcDef (name : String) (lineno : Nat) (argspec : Arguments) (returns : Option String)
      (hasDocstring : Bool) (body : List Node)
  | classDef (name : String) (lineno : Nat) (body : List Node)
  | other (body : List Node)

/-- The child nodes a traversal descends into (the nodes of the kinds the
linter inspects all live in statement bodies). -/
def children : Node → List Node
  | .importNode _ _ => []
  | .importFrom _ _ _ => []
  | .funcDef _ _ _ _ _ b => b
  | .classDef _ _ b => b
  | .other b => b

mutual

/-- Number of nodes in a tree (used as exact fuel for the traversal). -/
def Node.size : Node → Nat
  | .importNode _ _ => 1
  | .importFrom _ _ _ => 1
  | .funcDef _ _ _ _ _ b => 1 + Node.sizeList b
  | .classDef _ _ b => 1 + Node.sizeList b
  | .other b => 1 + Node.sizeList b

/-- Total number of nodes in a forest. -/
def Node.sizeList : List Node → Nat
  | [] => 0
  | n :: ns => Node.size n + Node.sizeList ns

end

/-- Breadth-first traversal of a queue of nodes, exactly the order of
Python's `ast.walk`: pop the front node, yield it, push its children at the
back.  The fuel argument makes the recursion structural; `walk` below
supplies the exact number of steps, so the `0` case is never hit (theorem
`walk_cons` below shows the traversal satisfies the unfueled breadth-first
equations). -/
def walkFuel : Nat → List Node → List Node
  | _, [] => []
  | 0, _ :: _ => []
  | fuel + 1, n :: q => n :: walkFuel fuel (q ++ children n)

/-- `ast.walk` order starting from a queue of nodes. -/
def walk (q : List Node) : List Node := walkFuel (Node.sizeList q) q

/-- `ast.walk(tree)` for a parsed module with the given body: the `Module`
node itself is visited first (it matches none of the analyzers' cases). -/
def walkModule (body : List Node) : List Node := walk [Node.other body]

/-! ### String comparison

Python compares the `ast.unparse` texts with `sorted(..., key=lambda x: x[1])`,
i.e. lexicographically by code point.  `charListLe` is that comparison on the
character lists of the two strings. -/

/-- Lexicographic (code-point, case-sensitive) comparison of two strings
given as character lists. -/
def charListLe : List Char → List Char → Bool
  | [], _ => true
  | _ :: _, [] => false
  | a :: as, b :: bs => if a < b then true else if b < a then false else charListLe as bs

/-- The sort key of `check_import_order`: compare `(lineno, text)` entries
by their text only. -/
def textLe (a b : Nat × String) : Prop := charListLe a.2.data b.2.data = true

instance : DecidableRel textLe := fun a b =>
  inferInstanceAs (Decidable (charListLe a.2.data b.2.data = true))

/-- Totality of the text comparison (proof term, feeding the `IsTotal`
instance used by the sortedness lemmas). -/
def charListLeTotal : ∀ x y : List Char, charListLe x y = true ∨ charListLe y x = true
  | [], _ => Or.inl rfl
  | _ :: _, [] => Or.inr rfl
  | a :: as, b :: bs => by
    rcases lt_trichotomy a b with h | h | h
    · left; simp [charListLe, h]
    · subst h
      rcases charListLeTotal as bs with h2 | h2
      · left; simp [charListLe, h2]
      · right; simp [charListLe, h2]
    · right; simp [charListLe, h]

/-- Transitivity of the text comparison (proof term, feeding the `IsTrans`
instance used by the sortedness lemmas). -/
def charListLeTrans : ∀ x y z : List Char,
    charListLe x y = true → charListLe y z = true → charListLe x z = true
  | [], _, _, _, _ => rfl
  | _ :: _, [], _, h, _ => by simp [charListLe] at h
  | _ :: _, _ :: _, [], _, h => by simp [charListLe] at h
  | a :: as, b :: bs, c :: cs, h1, h2 => by
    simp only [charListLe] at h1 h2 ⊢
    rcases lt_trichotomy a b with hab | hab | hab
    · rcases lt_trichotomy b c with hbc | hbc | hbc
      · simp [lt_trans hab hbc]
      · subst hbc; simp [hab]
      · simp [hab, not_lt_of_lt hab] at h1
        simp [hbc, not_lt_of_lt hbc] at h2
    · subst hab
      rcases lt_trichotomy a c with hac | hac | hac
      · simp [hac]
      · subst hac
        simp [lt_irrefl] at h1 h2 ⊢
        exact charListLeTrans as bs cs h1 h2
      · simp [hac, not_lt_of_lt hac] at h2
    · simp [hab, not_lt_of_lt hab] at h1

instance : IsTotal (Nat × String) textLe := ⟨fun a b => charListLeTotal a.2.data b.2.data⟩

instance : IsTrans (Nat × String) textLe :=
  ⟨fun a b c h1 h2 => charListLeTrans a.2.data b.2.data c.2.data h1 h2⟩

/-- Python's `sorted(l, key=lambda x: x[1])`: a stable sort comparing only
the text component.  Any two stable sorts by the same key agree, so an
insertion sort models the library sort exactly. -/
def sortByText (l : List (Nat × String)) : List (Nat × String) := List.insertionSort textLe l

/-! ### `check_import_order` -/

/-- The module-level constant `LOCAL_PACKAGES = {}` of `linter.py`:
the set of local package names, hardcoded empty. -/
def LOCAL_PACKAGES : List String := []

/-- `node.module.split('.')[0]`: the top-level component of a dotted module
path (the characters before the first dot). -/
def topModuleName (m : String) : String := String.mk (m.data.takeWhile (fun c => c ≠ '.'))

/-- The `direct_imports` list: `(lineno, unparse-text)` of every `ast.Import`
node, in traversal order. -/
def collectDirect (ns : List Node) : List (Nat × String) :=
  ns.filterMap fun n => match n with
    | .importNode l t => some (l, t)
    | _ => none

/-- The `third_party_from_imports` list: every `ast.ImportFrom` with a module
whose top-level name is not in `LOCAL_PACKAGES`. -/
def collectThird (ns : List Node) : List (Nat × String) :=
  ns.filterMap fun n => match n with
    | .importFrom l (some m) t =>
        if topModuleName m ∈ LOCAL_PACKAGES then none else some (l, t)
    | _ => none

/-- The `local_from_imports` list: every `ast.ImportFrom` with a module whose
top-level name is in `LOCAL_PACKAGES`. -/
def collectLocal (ns : List Node) : List (Nat × String) :=
  ns.filterMap fun n => match n with
    | .importFrom l (some m) t =>
        if topModuleName m ∈ LOCAL_PACKAGES then some (l, t) else none
    | _ => none

/-- `max(x[0] for x in l)` (only used on non-empty lists). -/
def maxLine : List (Nat × String) → Nat
  | [] => 0
  | x :: xs => xs.foldl (fun a b => max a b.1) x.1

/-- `min(x[0] for x in l)` (only used on non-empty lists). -/
def minLine : List (Nat × String) → Nat
  | [] => 0
  | x :: xs => xs.foldl (fun a b => min a b.1) x.1

def msgDirectSort (p : String) : String :=
  p ++ ":1 - Direct imports are not alphabetically ordered"

def msgThirdSort (p : String) : String :=
  p ++ ":1 - Third-party from-imports are not alphabetically ordered"

def msgLocalSort (p : String) : String :=
  p ++ ":1 - Local from-imports are not alphabetically ordered"

def msgThirdCross (p : String) : String :=
  p ++ ":1 - Third-party from-imports must come after direct imports"

def msgLocalCross (p : String) : String :=
  p ++ ":1 - Local from-imports must come after third-party from-imports"

/-- Body of `check_import_order` after the collection loop, operating on the
`ast.walk` node sequence: the three intra-section sortedness checks followed
by the two cross-section checks, each appending one fixed message. -/
def checkOrderAux (p : String) (ns : List Node) : List String :=
  let direct := collectDirect ns
  let third := collectThird ns
  let lcl := collectLocal ns
  (if direct ≠ [] ∧ sortByText direct ≠ direct then [msgDirectSort p] else []) ++
  (if third ≠ [] ∧ sortByText third ≠ third then [msgThirdSort p] else []) ++
  (if lcl ≠ [] ∧ sortByText lcl ≠ lcl then [msgLocalSort p] else []) ++
  (if direct ≠ [] ∧ third ≠ [] ∧ minLine third < maxLine direct then [msgThirdCross p] else []) ++
  (if third ≠ [] ∧ lcl ≠ [] ∧ minLine lcl < maxLine third then [msgLocalCross p] else [])

/-- `check_import_order` on a parsed file with the given module body. -/
def checkImportOrder (p : String) (body : List Node) : List String :=
  checkOrderAux p (walkModule body)

/-! ### `check_docstrings_and_type_hints` -/

def msgAt (p : String) (line : Nat) (tail : String) : String :=
  p ++ ":" ++ toString line ++ " - " ++ tail

def docMsgF (p : String) (line : Nat) (name : String) : String :=
  msgAt p line ("Missing docstring: Function: " ++ name)

def hintMsgF (p : String) (line : Nat) (name : String) : String :=
  msgAt p line ("Missing type hints: Function: " ++ name)

def docMsgM (p : String) (line : Nat) (cname name : String) : String :=
  msgAt p line ("Missing docstring: Method: " ++ cname ++ "." ++ name)

def hintMsgM (p : String) (line : Nat) (cname name : String) : String :=
  msgAt p line ("Missing type hints: Method: " ++ cname ++ "." ++ name)

/-- The type-hint condition of the linter:
`not node.returns or any(arg.annotation is None for arg in node.args.args
if arg.arg not in {"self", "cls"})`.  Only `args.args` is inspected. -/
def hintsMissing (argspec : Arguments) (returns : Option String) : Bool :=
  returns.isNone ||
    ((argspec.args.filter fun a => a.name != "self" && a.name != "cls").any
      fun a => a.annot.isNone)

/-- Diagnostics the `isinstance(node, ast.ClassDef)` branch produces for one
entry of a class body: function definitions are reported as
`Method: <class>.<name>`, anything else is skipped. -/
def methodIssues (p : String) (cname : String) : Node → List String
  | .funcDef name line argspec returns doc _ =>
      (if doc then [] else [docMsgM p line cname name]) ++
      (if hintsMissing argspec returns then [hintMsgM p line cname name] else [])
  | _ => []

/-- Diagnostics one visited node contributes: the `FunctionDef` branch
(label `Function: <name>`) and the `ClassDef` branch (its immediate body,
labelled `Method: <class>.<name>`). -/
def nodeIssues (p : String) : Node → List String
  | .funcDef name line argspec returns doc _ =>
      (if doc then [] else [docMsgF p line name]) ++
      (if hintsMissing argspec returns then [hintMsgF p line name] else [])
  | .classDef cname _ body => body.flatMap (methodIssues p cname)
  | _ => []

/-- The `for node in ast.walk(tree)` loop: append each visited node's
diagnostics to the accumulator. -/
def issuesLoop (p : String) : List Node → List String → List String
  | [], acc => acc
  | n :: ns, acc => issuesLoop p ns (acc ++ nodeIssues p n)

/-- `check_docstrings_and_type_hints` on a parsed file with the given
module body. -/
def checkDocstrings (p : String) (body : List Node) : List String :=
  issuesLoop p (walkModule body) []

/-! ### The `__main__` driver

The parser adapter is external: each input file arrives here as its path
together with the outcome of `ast.parse` (a module body, or a syntax
error).  The driver runs both checks on each file in order and collects the
printed diagnostics; an uncaught parse error stops the loop (there is no
`try`/`except` in `linter.py`), so the result also records whether a parse
error escaped. -/

/-- One file of a run: its path and its parse outcome. -/
abbrev SourceFile : Type := String × Except Unit (List Node)

/-- Diagnostics a single successfully parsed file contributes. -/
def fileDiags : SourceFile → List String
  | (p, .ok body) => checkImportOrder p body ++ checkDocstrings p body
  | (_, .error _) => []

/-- The `__main__` loop over the selected files: returns the diagnostics
printed before the run ends and the escaped parse error, if any. -/
def runLinter : List SourceFile → List String × Option Unit
  | [] => ([], none)
  | (_, .error e) :: _ => ([], some e)
  | (p, .ok body) :: rest =>
      ((checkImportOrder p body ++ checkDocstrings p body) ++ (runLinter rest).1,
       (runLinter rest).2)

/-! ### Spec-side definitions and concrete inputs used by the claims -/

/-- Modelled from the spec: the full parameter list of a declaration,
"whatever their kind" — positional-only, positional-or-keyword, `*args`,
keyword-only and `**kwargs` parameters.  Used to state claims that quantify
over all parameters; the code itself only reads `Arguments.args`. -/
def specAllParams (argspec : Arguments) : List Arg :=
  argspec.posonlyargs ++ argspec.args ++ argspec.vararg.toList ++
    argspec.kwonlyargs ++ argspec.kwarg.toList

/-- A class `Widget` with one documented, parameter-annotated method `resize`
that is missing only its return annotation. -/
def c1Body : List Node :=
  [Node.classDef "Widget" 1
    [Node.funcDef "resize" 2
      ⟨[], [⟨"self", none⟩, ⟨"factor", some "float"⟩], none, [], none⟩
      none true []]]

/-- A module with a single undocumented, unannotated function. -/
def c2Body : List Node :=
  [Node.funcDef "g" 1 ⟨[], [], none, [], none⟩ none false []]

/-- A direct import and a third-party from-import sharing line 1 (as produced
by the single source line `import z; from alpha import b`). -/
def c3Body : List Node :=
  [Node.importNode 1 "import z", Node.importFrom 1 (some "alpha") "from alpha import b"]

/-- A third-party from-import on a line before a direct import. -/
def c3WitnessBody : List Node :=
  [Node.importFrom 1 (some "alpha") "from alpha import x", Node.importNode 2 "import beta"]

/-- Arguments with a single, unannotated keyword-only parameter `x`. -/
def c5Args : Arguments := ⟨[], [], none, [⟨"x", none⟩], none⟩

/-- A documented function with return annotation whose only parameter is the
unannotated keyword-only `x`. -/
def c5Node : Node := Node.funcDef "f" 3 c5Args (some "int") true []

/-- Two undocumented, unannotated methods, in source order. -/
def c6ClassBody : List Node :=
  [Node.funcDef "m1" 2 ⟨[], [], none, [], none⟩ none false [],
   Node.funcDef "m2" 4 ⟨[], [], none, [], none⟩ none false []]

/-- A module holding one class `C` with the two methods above. -/
def c6Body : List Node := [Node.classDef "C" 1 c6ClassBody]

/-! ## Theorems -/

theorem sizeList_append (a b : List Node) :
    Node.sizeList (a ++ b) = Node.sizeList a + Node.sizeList b := by
  induction a with
  | nil => simp [Node.sizeList]
  | cons n ns ih => simp [Node.sizeList, ih]; omega

theorem size_eq_children (n : Node) : Node.size n = 1 + Node.sizeList (children n) := by
  cases n <;> rfl

/-- The fuel in `walk` is exact: the traversal satisfies the defining
equations of queue-based breadth-first search, so it never truncates. -/
theorem walk_cons (n : Node) (q : List Node) :
    walk (n :: q) = n :: walk (q ++ children n) := by
  show walkFuel (Node.sizeList (n :: q)) (n :: q) = _
  have h : Node.sizeList (n :: q) = Node.sizeList (q ++ children n) + 1 := by
    simp [Node.sizeList, sizeList_append, size_eq_children n]; omega
  rw [h]
  rfl

theorem walk_nil : walk [] = [] := rfl

theorem string_eq_of_data : ∀ {a b : String}, a.data = b.data → a = b
  | ⟨_⟩, ⟨_⟩, h => congrArg String.mk h

theorem append_ne_append_right (p : String) {s t : String} (h : s ≠ t) : p ++ s ≠ p ++ t := by
  intro he
  apply h
  apply string_eq_of_data
  have hd := congrArg String.data he
  rw [String.data_append, String.data_append] at hd
  exact List.append_cancel_left hd

theorem msgDirectSort_ne_msgThirdSort (p : String) : msgDirectSort p ≠ msgThirdSort p := by
  unfold msgDirectSort msgThirdSort; exact append_ne_append_right p (by decide)

theorem msgDirectSort_ne_msgLocalSort (p : String) : msgDirectSort p ≠ msgLocalSort p := by
  unfold msgDirectSort msgLocalSort; exact append_ne_append_right p (by decide)

theorem msgDirectSort_ne_msgThirdCross (p : String) : msgDirectSort p ≠ msgThirdCross p := by
  unfold msgDirectSort msgThirdCross; exact append_ne_append_right p (by decide)

theorem msgDirectSort_ne_msgLocalCross (p : String) : msgDirectSort p ≠ msgLocalCross p := by
  unfold msgDirectSort msgLocalCross; exact append_ne_append_right p (by decide)

theorem msgThirdSort_ne_msgLocalSort (p : String) : msgThirdSort p ≠ msgLocalSort p := by
  unfold msgThirdSort msgLocalSort; exact append_ne_append_right p (by decide)

theorem msgThirdSort_ne_msgThirdCross (p : String) : msgThirdSort p ≠ msgThirdCross p := by
  unfold msgThirdSort msgThirdCross; exact append_ne_append_right p (by decide)

theorem msgThirdSort_ne_msgLocalCross (p : String) : msgThirdSort p ≠ msgLocalCross p := by
  unfold msgThirdSort msgLocalCross; exact append_ne_append_right p (by decide)

theorem msgLocalSort_ne_msgThirdCross (p : String) : msgLocalSort p ≠ msgThirdCross p := by
  unfold msgLocalSort msgThirdCross; exact append_ne_append_right p (by decide)

theorem msgLocalSort_ne_msgLocalCross (p : String) : msgLocalSort p ≠ msgLocalCross p := by
  unfold msgLocalSort msgLocalCross; exact append_ne_append_right p (by decide)

theorem msgThirdCross_ne_msgLocalCross (p : String) : msgThirdCross p ≠ msgLocalCross p := by
  unfold msgThirdCross msgLocalCross; exact append_ne_append_right p (by decide)

theorem msgAt_ne {p : String} {line : Nat} {s t : String} (h : s.length ≠ t.length) :
    msgAt p line s ≠ msgAt p line t := by
  intro he
  apply h
  have hl := congrArg String.length he
  simp only [msgAt, String.length_append] at hl
  omega

theorem docMsgF_ne_hintMsgF (p : String) (line : Nat) (name : String) :
    docMsgF p line name ≠ hintMsgF p line name := by
  apply msgAt_ne
  simp only [String.length_append]
  have h1 : ("Missing docstring: Function: " : String).length = 29 := by decide
  have h2 : ("Missing type hints: Function: " : String).length = 30 := by decide
  omega

theorem docMsgM_ne_hintMsgM (p : String) (line : Nat) (cname name : String) :
    docMsgM p line cname name ≠ hintMsgM p line cname name := by
  apply msgAt_ne
  simp only [String.length_append]
  have h1 : ("Missing docstring: Method: " : String).length = 27 := by decide
  have h2 : ("Missing type hints: Method: " : String).length = 28 := by decide
  omega

theorem mem_ite_singleton {c : Prop} [Decidable c] {a m : String} :
    (a ∈ if c then [m] else []) ↔ c ∧ a = m := by
  split <;> simp_all

theorem count_ite_singleton {c : Prop} [Decidable c] (a m : String) :
    (if c then [m] else []).count a = if c ∧ a = m then 1 else 0 := by
  by_cases h : c
  · by_cases h2 : a = m <;> simp [h, h2, List.count_cons]
  · simp [h]

theorem sortByText_eq_self_iff (l : List (Nat × String)) :
    sortByText l = l ↔ l.Sorted textLe := by
  constructor
  · intro h
    rw [← h]
    exact List.sorted_insertionSort textLe l
  · exact fun h => List.Sorted.insertionSort_eq h

/-- Membership in the output of the import-order check, resolved into the
five possible diagnostics and their firing conditions. -/
theorem mem_checkOrderAux {p a : String} {ns : List Node} :
    (a ∈ checkOrderAux p ns) ↔
      (collectDirect ns ≠ [] ∧ sortByText (collectDirect ns) ≠ collectDirect ns ∧
        a = msgDirectSort p) ∨
      (collectThird ns ≠ [] ∧ sortByText (collectThird ns) ≠ collectThird ns ∧
        a = msgThirdSort p) ∨
      (collectLocal ns ≠ [] ∧ sortByText (collectLocal ns) ≠ collectLocal ns ∧
        a = msgLocalSort p) ∨
      (collectDirect ns ≠ [] ∧ collectThird ns ≠ [] ∧
        minLine (collectThird ns) < maxLine (collectDirect ns) ∧ a = msgThirdCross p) ∨
      (collectThird ns ≠ [] ∧ collectLocal ns ≠ [] ∧
        minLine (collectLocal ns) < maxLine (collectThird ns) ∧ a = msgLocalCross p) := by
  simp only [checkOrderAux, List.mem_append, mem_ite_singleton, and_assoc, or_assoc]

theorem mem_ite_nil_singleton {c : Prop} [Decidable c] {a m : String} :
    (a ∈ if c then [] else [m]) ↔ ¬c ∧ a = m := by
  split <;> simp_all

/-- C4: for each of the three import categories, `check_import_order` emits
exactly one aggregate `ImportOrder` diagnostic for that category — a single
file-level message whose text references line 1 — when the category is
non-empty and its collected entries are not sorted by normalized text in
case-sensitive ascending order, and none otherwise.  The last conjunct
identifies the code's test (`sorted(xs, key=text) != xs`, a stable sort)
with non-strict `textLe`-sortedness, so two entries with identical
normalized text count as already sorted. -/
theorem c4_intra_section_aggregate (p : String) (body : List Node) :
    ((checkImportOrder p body).count (msgDirectSort p) =
      if collectDirect (walkModule body) ≠ [] ∧
          ¬ (collectDirect (walkModule body)).Sorted textLe then 1 else 0) ∧
    ((checkImportOrder p body).count (msgThirdSort p) =
      if collectThird (walkModule body) ≠ [] ∧
          ¬ (collectThird (walkModule body)).Sorted textLe then 1 else 0) ∧
    ((checkImportOrder p body).count (msgLocalSort p) =
      if collectLocal (walkModule body) ≠ [] ∧
          ¬ (collectLocal (walkModule body)).Sorted textLe then 1 else 0) ∧
    (∀ l : List (Nat × String), sortByText l = l ↔ l.Sorted textLe) := by
  refine ⟨?_, ?_, ?_, sortByText_eq_self_iff⟩
  · simp [checkImportOrder, checkOrderAux, List.count_append, count_ite_singleton,
      msgDirectSort_ne_msgThirdSort p, msgDirectSort_ne_msgLocalSort p,
      msgDirectSort_ne_msgThirdCross p, msgDirectSort_ne_msgLocalCross p,
      sortByText_eq_self_iff]
  · simp [checkImportOrder, checkOrderAux, List.count_append, count_ite_singleton,
      (msgDirectSort_ne_msgThirdSort p).symm, msgThirdSort_ne_msgLocalSort p,
      msgThirdSort_ne_msgThirdCross p, msgThirdSort_ne_msgLocalCross p,
      sortByText_eq_self_iff]
  · simp [checkImportOrder, checkOrderAux, List.count_append, count_ite_singleton,
      (msgDirectSort_ne_msgLocalSort p).symm, (msgThirdSort_ne_msgLocalSort p).symm,
      msgLocalSort_ne_msgThirdCross p, msgLocalSort_ne_msgLocalCross p,
      sortByText_eq_self_iff]

/-- C3 counterexample: `import z; from alpha import b` on a single source
line gives a direct import and a third-party from-import with equal line
numbers, so the maximum Direct line is *not less than* the minimum
ThirdPartyFrom line — the claim then demands a cross-section diagnostic —
yet `check_import_order` (which tests `first_third_party < last_direct`
strictly) emits nothing. -/
theorem c3_counterexample :
    collectDirect (walkModule c3Body) ≠ [] ∧
    collectThird (walkModule c3Body) ≠ [] ∧
    maxLine (collectDirect (walkModule c3Body)) ≥ minLine (collectThird (walkModule c3Body)) ∧
    msgThirdCross "m.py" ∉ checkImportOrder "m.py" c3Body := by
  refine ⟨by decide, by decide, by decide, by decide⟩

/-- C3 (amended): the cross-section diagnostic for (Direct, ThirdPartyFrom)
is emitted exactly when both categories are non-empty and the maximum line
number among Direct imports is *strictly greater* than the minimum line
number among ThirdPartyFrom imports; the same rule holds for
(ThirdPartyFrom, LocalFrom); a file whose imports fall in exactly one
category never receives a cross-section diagnostic. -/
theorem c3_cross_section_iff (p : String) (body : List Node) :
    ((msgThirdCross p ∈ checkImportOrder p body) ↔
      collectDirect (walkModule body) ≠ [] ∧ collectThird (walkModule body) ≠ [] ∧
        minLine (collectThird (walkModule body)) < maxLine (collectDirect (walkModule body))) ∧
    ((msgLocalCross p ∈ checkImportOrder p body) ↔
      collectThird (walkModule body) ≠ [] ∧ collectLocal (walkModule body) ≠ [] ∧
        minLine (collectLocal (walkModule body)) < maxLine (collectThird (walkModule body))) ∧
    (((collectDirect (walkModule body) = [] ∧ collectThird (walkModule body) = []) ∨
      (collectDirect (walkModule body) = [] ∧ collectLocal (walkModule body) = []) ∨
      (collectThird (walkModule body) = [] ∧ collectLocal (walkModule body) = [])) →
      msgThirdCross p ∉ checkImportOrder p body ∧ msgLocalCross p ∉ checkImportOrder p body) := by
  have h1 : (msgThirdCross p ∈ checkImportOrder p body) ↔
      collectDirect (walkModule body) ≠ [] ∧ collectThird (walkModule body) ≠ [] ∧
        minLine (collectThird (walkModule body)) < maxLine (collectDirect (walkModule body)) := by
    rw [checkImportOrder, mem_checkOrderAux]
    simp [(msgDirectSort_ne_msgThirdCross p).symm, (msgThirdSort_ne_msgThirdCross p).symm,
      (msgLocalSort_ne_msgThirdCross p).symm, msgThirdCross_ne_msgLocalCross p]
  have h2 : (msgLocalCross p ∈ checkImportOrder p body) ↔
      collectThird (walkModule body) ≠ [] ∧ collectLocal (walkModule body) ≠ [] ∧
        minLine (collectLocal (walkModule body)) < maxLine (collectThird (walkModule body)) := by
    rw [checkImportOrder, mem_checkOrderAux]
    simp [(msgDirectSort_ne_msgLocalCross p).symm, (msgThirdSort_ne_msgLocalCross p).symm,
      (msgLocalSort_ne_msgLocalCross p).symm, (msgThirdCross_ne_msgLocalCross p).symm]
  refine ⟨h1, h2, ?_⟩
  intro h
  rw [h1, h2]
  constructor
  · rintro ⟨hd, ht, -⟩
    rcases h with ⟨e1, e2⟩ | ⟨e1, e2⟩ | ⟨e1, e2⟩
    · exact ht e2
    · exact hd e1
    · exact ht e1
  · rintro ⟨ht, hl, -⟩
    rcases h with ⟨e1, e2⟩ | ⟨e1, e2⟩ | ⟨e1, e2⟩
    · exact ht e2
    · exact hl e2
    · exact ht e1

/-- C3 witness: a third-party from-import on line 1 followed by a direct
one on line 2 fires the amended cross-section rule. -/
theorem c3_cross_section_witness :
    msgThirdCross "w.py" ∈ checkImportOrder "w.py" c3WitnessBody :=
  (c3_cross_section_iff "w.py" c3WitnessBody).1.mpr ⟨by decide, by decide, by decide⟩

/-- C8: `LOCAL_PACKAGES` is hardcoded empty, so every from-import naming a
module is classified third-party, the local list is empty on every input,
and the two `Local from-imports ...` diagnostics are unreachable. -/
theorem c8_local_category_unreachable (p : String) (body : List Node) :
    collectLocal (walkModule body) = [] ∧
    (∀ l m t, Node.importFrom l (some m) t ∈ walkModule body →
      (l, t) ∈ collectThird (walkModule body)) ∧
    msgLocalSort p ∉ checkImportOrder p body ∧
    msgLocalCross p ∉ checkImportOrder p body := by
  have hloc : collectLocal (walkModule body) = [] := by
    rw [collectLocal, List.filterMap_eq_nil_iff]
    intro n hn
    cases n with
    | importFrom l mo t => cases mo <;> simp [LOCAL_PACKAGES]
    | _ => rfl
  refine ⟨hloc, ?_, ?_, ?_⟩
  · intro l m t hmem
    exact List.mem_filterMap.mpr ⟨Node.importFrom l (some m) t, hmem, by simp [LOCAL_PACKAGES]⟩
  · rw [checkImportOrder, mem_checkOrderAux]
    simp [hloc, (msgDirectSort_ne_msgLocalSort p).symm, (msgThirdSort_ne_msgLocalSort p).symm,
      msgLocalSort_ne_msgThirdCross p]
  · rw [checkImportOrder, mem_checkOrderAux]
    simp [hloc, (msgDirectSort_ne_msgLocalCross p).symm, (msgThirdSort_ne_msgLocalCross p).symm,
      (msgThirdCross_ne_msgLocalCross p).symm]

/-- C8 witness: on a file holding one from-import of module `alpha.beta`,
the import lands in the third-party list. -/
theorem c8_local_unreachable_witness :
    (3, "from alpha.beta import g") ∈
      collectThird (walkModule [Node.importFrom 3 (some "alpha.beta") "from alpha.beta import g"]) :=
  ((c8_local_category_unreachable "w8.py"
      [Node.importFrom 3 (some "alpha.beta") "from alpha.beta import g"]).2.1)
    3 "alpha.beta" "from alpha.beta import g"
    (by
      have h : walkModule [Node.importFrom 3 (some "alpha.beta") "from alpha.beta import g"] =
          [Node.other [Node.importFrom 3 (some "alpha.beta") "from alpha.beta import g"],
           Node.importFrom 3 (some "alpha.beta") "from alpha.beta import g"] := rfl
      rw [h]
      exact List.mem_cons_of_mem _ (List.mem_cons_self _ _))

/-- C9: a relative from-import with no module name (`from . import x`,
where `node.module` is `None`) is skipped entirely by the collection loop of
`check_import_order`: it lands in none of the three category lists and its
presence in the walked node sequence changes no diagnostic. -/
theorem c9_relative_import_skipped (p : String) (pre post : List Node) (l : Nat) (t : String)
    (ns : List Node) (h : ns = pre ++ Node.importFrom l none t :: post) :
    collectDirect ns = collectDirect (pre ++ post) ∧
    collectThird ns = collectThird (pre ++ post) ∧
    collectLocal ns = collectLocal (pre ++ post) ∧
    checkOrderAux p ns = checkOrderAux p (pre ++ post) := by
  subst h
  have hd : collectDirect (pre ++ Node.importFrom l none t :: post) =
      collectDirect (pre ++ post) := by
    simp [collectDirect, List.filterMap_append, List.filterMap_cons]
  have ht : collectThird (pre ++ Node.importFrom l none t :: post) =
      collectThird (pre ++ post) := by
    simp [collectThird, List.filterMap_append, List.filterMap_cons]
  have hl : collectLocal (pre ++ Node.importFrom l none t :: post) =
      collectLocal (pre ++ post) := by
    simp [collectLocal, List.filterMap_append, List.filterMap_cons]
  refine ⟨hd, ht, hl, ?_⟩
  simp only [checkOrderAux, hd, ht, hl]

/-- C9 witness: dropping `from . import x` from between two direct imports
leaves every diagnostic of the import-order check unchanged. -/
theorem c9_relative_import_witness :
    checkOrderAux "w9.py"
        [Node.importNode 1 "import b", Node.importFrom 2 none "from . import x",
         Node.importNode 3 "import a"] =
      checkOrderAux "w9.py" [Node.importNode 1 "import b", Node.importNode 3 "import a"] :=
  (c9_relative_import_skipped "w9.py" [Node.importNode 1 "import b"]
    [Node.importNode 3 "import a"] 2 "from . import x" _ rfl).2.2.2

theorem hintsMissing_iff (argspec : Arguments) (returns : Option String) :
    hintsMissing argspec returns = true ↔
      returns = none ∨ ∃ a ∈ argspec.args, a.name ≠ "self" ∧ a.name ≠ "cls" ∧ a.annot = none := by
  simp only [hintsMissing, Bool.or_eq_true, List.any_eq_true, List.mem_filter,
    Bool.and_eq_true, bne_iff_ne, Option.isNone_iff_eq_none, ne_eq]
  constructor
  · rintro (h | ⟨a, ⟨ha, h1, h2⟩, h3⟩)
    · exact Or.inl h
    · exact Or.inr ⟨a, ha, h1, h2, h3⟩
  · rintro (h | ⟨a, ha, h1, h2, h3⟩)
    · exact Or.inl h
    · exact Or.inr ⟨a, ⟨ha, h1, h2⟩, h3⟩

/-- C5 counterexample: a documented function with a return annotation whose
single parameter is the keyword-only, unannotated `x`.  The claim (which
quantifies over parameters of every kind) demands a MissingTypeHint
diagnostic, but the code inspects only `node.args.args` and emits nothing. -/
theorem c5_counterexample :
    (∃ a ∈ specAllParams c5Args, a.name ≠ "self" ∧ a.name ≠ "cls" ∧ a.annot = none) ∧
    nodeIssues "k.py" c5Node = [] := by
  exact ⟨⟨⟨"x", none⟩, by decide, by decide, by decide, rfl⟩, rfl⟩

/-- C5 (amended): a function or method declaration receives a
MissingTypeHint diagnostic if and only if its return annotation is absent or
some *positional-or-keyword* parameter (`node.args.args`) not named `self`
or `cls` lacks an annotation; parameters of other kinds (positional-only,
keyword-only, `*args`, `**kwargs`) are not inspected. -/
theorem c5_hint_iff (p name cname : String) (line : Nat) (argspec : Arguments)
    (returns : Option String) (doc : Bool) (body : List Node) :
    ((hintMsgF p line name ∈ nodeIssues p (.funcDef name line argspec returns doc body)) ↔
      (returns = none ∨ ∃ a ∈ argspec.args, a.name ≠ "self" ∧ a.name ≠ "cls" ∧ a.annot = none)) ∧
    ((hintMsgM p line cname name ∈
        methodIssues p cname (.funcDef name line argspec returns doc body)) ↔
      (returns = none ∨ ∃ a ∈ argspec.args, a.name ≠ "self" ∧ a.name ≠ "cls" ∧ a.annot = none)) := by
  constructor
  · rw [← hintsMissing_iff]
    simp [nodeIssues, mem_ite_singleton, mem_ite_nil_singleton,
      (docMsgF_ne_hintMsgF p line name).symm]
  · rw [← hintsMissing_iff]
    simp [methodIssues, mem_ite_singleton, mem_ite_nil_singleton,
      (docMsgM_ne_hintMsgM p line cname name).symm]

/-- C5 witness: an unannotated positional-or-keyword parameter `y` makes the
amended condition fire for the Function-labelled branch. -/
theorem c5_hint_iff_witness :
    hintMsgF "w5.py" 7 "f" ∈
      nodeIssues "w5.py"
        (.funcDef "f" 7 ⟨[], [⟨"y", none⟩], none, [], none⟩ (some "int") true []) :=
  ((c5_hint_iff "w5.py" "f" "K" 7 ⟨[], [⟨"y", none⟩], none, [], none⟩
      (some "int") true []).1).mpr
    (Or.inr ⟨⟨"y", none⟩, by decide, by decide, by decide, rfl⟩)

/-- C7: a function declared with a docstring, a return annotation, and an
annotation on every parameter of every kind produces zero diagnostics,
whether visited as a top-level function or as a method of any class. -/
theorem c7_fully_annotated_clean (p name cname : String) (line : Nat) (argspec : Arguments)
    (r : String) (body : List Node)
    (hann : ∀ a ∈ specAllParams argspec, a.annot ≠ none) :
    nodeIssues p (.funcDef name line argspec (some r) true body) = [] ∧
    methodIssues p cname (.funcDef name line argspec (some r) true body) = [] := by
  have hm : hintsMissing argspec (some r) = false := by
    rw [Bool.eq_false_iff, Ne, hintsMissing_iff]
    rintro (h1 | ⟨a, ha, -, -, h3⟩)
    · exact Option.noConfusion h1
    · exact hann a (by simp [specAllParams, List.mem_append]; tauto) h3
  simp [nodeIssues, methodIssues, hm]

/-- C7 witness: a concrete fully annotated, documented function. -/
theorem c7_fully_annotated_witness :
    nodeIssues "w7.py"
        (.funcDef "h" 1 ⟨[], [⟨"a", some "int"⟩], none, [], none⟩ (some "str") true []) = [] ∧
    methodIssues "w7.py" "K"
        (.funcDef "h" 1 ⟨[], [⟨"a", some "int"⟩], none, [], none⟩ (some "str") true []) = [] :=
  c7_fully_annotated_clean "w7.py" "h" "K" 1 ⟨[], [⟨"a", some "int"⟩], none, [], none⟩
    "str" [] (by decide)

/-- C10: the `self`/`cls` exclusion is applied to every declaration, with no
check that the declaration is a method: a function whose unannotated
positional-or-keyword parameters are all named `self` or `cls` receives no
MissingTypeHint diagnostic, provided its return annotation is present. -/
theorem c10_self_cls_excluded (p name : String) (line : Nat) (argspec : Arguments)
    (r : String) (doc : Bool) (body : List Node)
    (h : ∀ a ∈ argspec.args, a.annot = none → a.name = "self" ∨ a.name = "cls") :
    hintMsgF p line name ∉ nodeIssues p (.funcDef name line argspec (some r) doc body) := by
  have hm : hintsMissing argspec (some r) = false := by
    rw [Bool.eq_false_iff, Ne, hintsMissing_iff]
    rintro (h1 | ⟨a, ha, h1, h2, h3⟩)
    · exact Option.noConfusion h1
    · rcases h a ha h3 with h4 | h4
      · exact h1 h4
      · exact h2 h4
  simp [nodeIssues, hm, mem_ite_nil_singleton, (docMsgF_ne_hintMsgF p line name).symm]

/-- C10 witness: a top-level function whose only (unannotated) parameter is
named `self` gets no MissingTypeHint diagnostic. -/
theorem c10_self_cls_witness :
    hintMsgF "w10.py" 1 "free" ∉
      nodeIssues "w10.py"
        (.funcDef "free" 1 ⟨[], [⟨"self", none⟩], none, [], none⟩ (some "int") false []) :=
  c10_self_cls_excluded "w10.py" "free" 1 ⟨[], [⟨"self", none⟩], none, [], none⟩
    "int" false [] (by decide)

/-- C1: code bug.  On a class `Widget` whose documented, parameter-annotated
method `resize` is missing only its return annotation, the checker returns
TWO MissingTypeHint diagnostics for that one method — the `ClassDef` branch
reports `Method: Widget.resize`, and then `ast.walk` reaches the nested
`FunctionDef` itself and the function branch reports `Function: resize`
again — where the spec promises exactly one diagnostic, labelled
`Method: Widget.resize`, and at most two diagnostics per declaration unit. -/
theorem c1_method_reported_twice :
    checkDocstrings "app.py" c1Body =
      [hintMsgM "app.py" 2 "Widget" "resize", hintMsgF "app.py" 2 "resize"] := by
  rfl

theorem issuesLoop_eq (p : String) (ns : List Node) (acc : List String) :
    issuesLoop p ns acc = acc ++ (ns.map (nodeIssues p)).flatten := by
  induction ns generalizing acc with
  | nil => simp [issuesLoop]
  | cons n ns2 ih => simp [issuesLoop, ih]

/-- C6: the diagnostics of `check_docstrings_and_type_hints` come out in
traversal order — the output is the concatenation of the per-node
diagnostic lists in `ast.walk` order — and every class visited contributes
its methods' diagnostics as one contiguous block that preserves class-body
source order. -/
theorem c6_traversal_order (p : String) (body : List Node) :
    checkDocstrings p body = ((walkModule body).map (nodeIssues p)).flatten ∧
    (∀ cname cline cbody, Node.classDef cname cline cbody ∈ walkModule body →
      ∃ pre post, checkDocstrings p body =
        pre ++ cbody.flatMap (methodIssues p cname) ++ post) := by
  have h1 : checkDocstrings p body = ((walkModule body).map (nodeIssues p)).flatten := by
    rw [checkDocstrings, issuesLoop_eq]
    simp
  refine ⟨h1, ?_⟩
  intro cname cline cbody hmem
  obtain ⟨s, t, hst⟩ := List.append_of_mem hmem
  refine ⟨(s.map (nodeIssues p)).flatten, (t.map (nodeIssues p)).flatten, ?_⟩
  rw [h1, hst]
  simp [nodeIssues]

/-- C6 witness: for a module with one class `C` holding methods `m1`, `m2`,
the method block of `C` (in source order) occurs contiguously in the
output. -/
theorem c6_traversal_witness :
    ∃ pre post, checkDocstrings "t.py" c6Body =
      pre ++ c6ClassBody.flatMap (methodIssues "t.py" "C") ++ post :=
  (c6_traversal_order "t.py" c6Body).2 "C" 1 c6ClassBody (by
    have h : walkModule c6Body =
        Node.other c6Body :: Node.classDef "C" 1 c6ClassBody :: c6ClassBody := rfl
    rw [h]
    exact List.mem_cons_of_mem _ (List.mem_cons_self _ _))

/-- C2 counterexample: a run over `a.py` (parse failure) followed by `b.py`
(parseable, and yielding diagnostics when analyzed alone) produces no
diagnostics at all and an escaped error: analysis of the other file did not
complete, contrary to the claim's per-file isolation. -/
theorem c2_counterexample :
    runLinter [("a.py", Except.error ()), ("b.py", Except.ok c2Body)] = ([], some ()) ∧
    checkDocstrings "b.py" c2Body ≠ [] := by
  exact ⟨rfl, by decide⟩

/-- C2 (amended): a file whose text fails to parse raises an uncaught syntax
error that aborts the run at that file: the diagnostics of the files before
it are emitted, the error escapes, and neither the failing file nor any
later file is analyzed. -/
theorem c2_parse_error_aborts (pre : List SourceFile) (p : String) (post : List SourceFile)
    (h : ∀ f ∈ pre, ∃ b, f.2 = Except.ok b) :
    runLinter (pre ++ (p, Except.error ()) :: post) = (pre.flatMap fileDiags, some ()) := by
  induction pre with
  | nil => rfl
  | cons f fs ih =>
    obtain ⟨b, hb⟩ := h f (List.mem_cons_self f fs)
    obtain ⟨q, pf⟩ := f
    dsimp at hb
    subst hb
    have ih2 := ih (fun g hg => h g (List.mem_cons_of_mem _ hg))
    simp [runLinter, fileDiags, ih2]

/-- C2 witness: a run where the well-formed file precedes the failing one —
its diagnostics are kept, the error still escapes. -/
theorem c2_parse_error_witness :
    runLinter [("ok.py", Except.ok []), ("bad.py", Except.error ())] =
      ([(("ok.py", Except.ok []) : SourceFile)].flatMap fileDiags, some ()) :=
  c2_parse_error_aborts [("ok.py", Except.ok [])] "bad.py" []
    (by
      intro f hf
      rw [List.mem_singleton] at hf
      subst hf
      exact ⟨[], rfl⟩)

/-- C4 witness: two direct imports in reversed alphabetical order produce
exactly one aggregate diagnostic for the Direct section. -/
theorem c4_intra_section_witness :
    (checkImportOrder "w4.py"
        [Node.importNode 1 "import b", Node.importNode 2 "import a"]).count
      (msgDirectSort "w4.py") = 1 := by
  rw [(c4_intra_section_aggregate "w4.py"
    [Node.importNode 1 "import b", Node.importNode 2 "import a"]).1]
  decide
